import Mathlib

/-! Verification of the SQLatte stateful core.

A shallow embedding of the session, conversation, query-history and
analytics components of the SQLatte repository
(`src/core/query_history.py`, `src/core/analytics_db.py`,
`src/core/conversation_manager.py`, `src/plugins/session_manager.py`,
`src/api/analytics_routes.py`), together with theorems settling the
specification claims about them.

Modelling conventions:
* Python `dict` (insertion ordered, unique keys) is an association list
  `List (String × α)`; updating an existing key keeps its position,
  a new key is appended, deletion removes the key's entry.
* Wall-clock time (`datetime.now()`) is an explicit `now : Nat`
  argument, measured in minutes where TTLs are involved.
* `uuid.uuid4()` is an explicit `freshId : String` argument.
* The truncated MD5 digest of `QueryRecord.get_hash` is modelled by the
  normalized text itself (`sql.strip().lower()`): the digest is a
  deterministic function of that text, so the hash comparisons of the
  dedup window behave identically (up to MD5 collisions, which are
  not relevant to any claim).
* Python object aliasing (a record shared between the favorites dict
  and a history list) is modelled by updating every stored copy with
  the same record id, valid under the unique-id invariant that both
  stores maintain.
-/

/-! The association-list model of Python dictionaries. -/

/-- Lookup in an insertion-ordered dict (`d[k]` / `d.get(k)`). -/
def dictGet {α : Type} : List (String × α) → String → Option α
  | [], _ => none
  | p :: rest, k => if p.1 == k then some p.2 else dictGet rest k

/-- `k in d`. -/
def dictMem {α : Type} (d : List (String × α)) (k : String) : Bool :=
  (dictGet d k).isSome

/-- `d[k] = v`: overwrite in place if `k` is present, else append. -/
def dictSet {α : Type} : List (String × α) → String → α → List (String × α)
  | [], k, v => [(k, v)]
  | p :: rest, k, v => if p.1 == k then (k, v) :: rest else p :: dictSet rest k v

/-- `del d[k]`: removes the entry for `k` (unique in a Python dict). -/
def dictDel {α : Type} : List (String × α) → String → List (String × α)
  | [], _ => []
  | p :: rest, k => if p.1 == k then rest else p :: dictDel rest k

/-! Python truthiness and string helpers. -/

/-- Python truthiness of an optional string argument (`if x:`):
false for `None` and for the empty string. -/
def truthyStr : Option String → Bool
  | none => false
  | some s => !(s == "")

/-- Python truthiness of an optional list argument (`if x:`):
false for `None` and for the empty list. -/
def truthyList {α : Type} : Option (List α) → Bool
  | none => false
  | some l => !l.isEmpty

/-- `needle` is a leading segment of `hay`. -/
def startsWithL : List Char → List Char → Bool
  | [], _ => true
  | _ :: _, [] => false
  | a :: as, b :: bs => a == b && startsWithL as bs

/-- `needle` occurs contiguously in `hay` (Python `needle in hay` on strings). -/
def hasSubList (needle : List Char) : List Char → Bool
  | [] => startsWithL needle []
  | b :: bs => startsWithL needle (b :: bs) || hasSubList needle bs

/-- Python `needle in hay` for strings. -/
def strContains (hay needle : String) : Bool :=
  hasSubList needle.data hay.data

/-- Whitespace for `str.strip()` (ASCII model of Python's notion). -/
def isSpaceChar (c : Char) : Bool :=
  c == ' ' || c == '\t' || c == '\n' || c == '\r'

/-- `str.strip()`: drop whitespace from both ends. -/
def stripChars (l : List Char) : List Char :=
  ((l.dropWhile isSpaceChar).reverse.dropWhile isSpaceChar).reverse

/-- `str.lower()` on one character (ASCII model). -/
def lowerChar (c : Char) : Char :=
  if 'A' ≤ c && c ≤ 'Z' then Char.ofNat (c.toNat + 32) else c

/-- `str.lower()`. -/
def lowerStr (s : String) : String :=
  ⟨s.data.map lowerChar⟩

/-- `sql.strip().lower()`: the dedup normalization. -/
def normalizeSql (s : String) : String :=
  ⟨(stripChars s.data).map lowerChar⟩

/-- Python `s[:n]` (character slice). -/
def strTake (s : String) (n : Nat) : String :=
  ⟨s.data.take n⟩

/-- The last `n` elements of a list (Python `l[-n:]`). -/
def lastN {α : Type} (n : Nat) (l : List α) : List α :=
  l.drop (l.length - n)

/-! The records and manager of src/core/query_history.py. -/

/-- `QueryRecord` dataclass. `created_at : Nat` models the `datetime`;
optional Python `None` fields are `Option`s. -/
structure QueryRecord where
  id : String
  question : String
  sql : String
  tables : List String
  row_count : Nat
  execution_time_ms : ℚ
  created_at : Nat
  session_id : String
  is_favorite : Bool
  favorite_name : Option String
  tags : List String
deriving DecidableEq

/-- `QueryRecord.get_hash`:
`hashlib.md5(self.sql.strip().lower().encode()).hexdigest()[:12]`.
The truncated MD5 digest is a deterministic function of the normalized
text `sql.strip().lower()`, modelled by that text itself (file header). -/
def getHash (sql : String) : String :=
  normalizeSql sql

/-- The mutable state of `QueryHistoryManager`:
`history : dict[session_id, list[QueryRecord]]`,
`favorites : dict[query_id, QueryRecord]`, and the two bounds. -/
structure QueryHistoryManager where
  history : List (String × List QueryRecord)
  favorites : List (String × QueryRecord)
  max_history_per_session : Nat
  max_favorites : Nat

/-- The eviction loop of `add_query`: scan from the front, pop the first
non-favorite entry, leave the list unchanged if every entry is a favorite. -/
def removeFirstNonFavorite : List QueryRecord → List QueryRecord
  | [] => []
  | r :: rs => if r.is_favorite then r :: removeFirstNonFavorite rs else rs

/-- `QueryHistoryManager.add_query`. Builds the fresh record, compares its
hash with the hashes of the last 5 records of the session's in-memory list,
appends only when no match, then enforces `max_history_per_session` by
removing the first non-favorite entry. Writes nowhere else. -/
def addQuery (m : QueryHistoryManager) (freshId : String) (now : Nat)
    (session_id question sql : String) (tables : List String)
    (row_count : Nat) (execution_time_ms : ℚ) (tags : List String) :
    QueryRecord × QueryHistoryManager :=
  let cur := (dictGet m.history session_id).getD []
  let record : QueryRecord :=
    { id := freshId, question := question, sql := sql, tables := tables,
      row_count := row_count, execution_time_ms := execution_time_ms,
      created_at := now, session_id := session_id, is_favorite := false,
      favorite_name := none, tags := tags }
  let recentHashes := (lastN 5 cur).map (fun q => getHash q.sql)
  if recentHashes.contains (getHash record.sql) then
    (record, { m with history := dictSet m.history session_id cur })
  else
    let appended := cur ++ [record]
    let trimmed :=
      if appended.length > m.max_history_per_session then
        removeFirstNonFavorite appended
      else appended
    (record, { m with history := dictSet m.history session_id trimmed })

/-- The search predicate of `get_history`:
`search_lower in q.question.lower() or search_lower in q.sql.lower()`. -/
def matchesSearch (searchLower : String) (q : QueryRecord) : Bool :=
  strContains (lowerStr q.question) searchLower ||
    strContains (lowerStr q.sql) searchLower

/-- The tables predicate of `get_history`:
`any(t in q.tables for t in tables_filter)`. -/
def intersectsTables (tf : List String) (q : QueryRecord) : Bool :=
  tf.any (fun t => q.tables.contains t)

/-- `sort(key=lambda x: x.created_at, reverse=True)`: stable sort,
most recent first. -/
def byCreatedDesc (a b : QueryRecord) : Bool :=
  Nat.ble b.created_at a.created_at

/-- `QueryHistoryManager.get_history`. Reads the session's entry of the
in-memory `history` dict, applies the search filter, the tables filter,
sorts by `created_at` descending (stable), then paginates
(`queries[offset:offset+limit]`). -/
def getHistory (m : QueryHistoryManager) (session_id : String)
    (limit offset : Nat) (search : Option String)
    (tables_filter : Option (List String)) : List QueryRecord :=
  match dictGet m.history session_id with
  | none => []
  | some qs =>
    let qs1 := if truthyStr search then
        qs.filter (matchesSearch (lowerStr (search.getD ""))) else qs
    let qs2 := if truthyList tables_filter then
        qs1.filter (intersectsTables (tables_filter.getD [])) else qs1
    let sorted := qs2.mergeSort byCreatedDesc
    (sorted.drop offset).take limit

/-- The combined record predicate of `get_history` as the claim words it:
a cached record is kept exactly when it passes the search filter (vacuous
when no truthy `search` is given) and the tables-intersection filter
(vacuous when no truthy `tables_filter` is given). Stated as one predicate
so that `getHistory` can be characterized extensionally as a single
filter-sort-paginate pipeline; proved equivalent to the code's two
sequential conditional filters. -/
def keepsRecord (search : Option String) (tf : Option (List String))
    (q : QueryRecord) : Bool :=
  (!truthyStr search || matchesSearch (lowerStr (search.getD "")) q) &&
    (!truthyList tf || intersectsTables (tf.getD []) q)

/-! The durable log: AnalyticsDB, src/core/analytics_db.py. -/

/-- The state of the whole history subsystem: the in-memory
`QueryHistoryManager` plus the durable `queries` table of `AnalyticsDB`. -/
structure SystemState where
  qh : QueryHistoryManager
  log : List QueryRecord

/-- `AnalyticsDB.save_query`: a successful INSERT of one record into the
durable `queries` table. Defined in `src/core/analytics_db.py` but not
called from anywhere in the repository. -/
def saveQuery (log : List QueryRecord) (r : QueryRecord) : List QueryRecord :=
  log ++ [r]

/-- What the repository actually executes when a query is added to history:
a call to `QueryHistoryManager.add_query` and nothing else — no call site
of `AnalyticsDB.save_query` exists, so the durable table is untouched. -/
def systemAddQuery (st : SystemState) (freshId : String) (now : Nat)
    (session_id question sql : String) (tables : List String)
    (row_count : Nat) (execution_time_ms : ℚ) (tags : List String) :
    SystemState :=
  { st with
    qh := (addQuery st.qh freshId now session_id question sql tables
            row_count execution_time_ms tags).2 }

/-- Modelled from the spec: `get_history` as the specification words it —
"reads from PersistentLog (not the cache) ordered by `created_at`
descending; `search` does case-insensitive substring match against
`question` or `sql`; `tables_filter` keeps records whose `tables`
intersects the filter set; pagination via offset/limit applied after
filtering". Used only to compare the code's `getHistory` against the
spec's reading source. -/
def getHistorySpec (st : SystemState) (session_id : String)
    (limit offset : Nat) (search : Option String)
    (tables_filter : Option (List String)) : List QueryRecord :=
  let qs := st.log.filter (fun q => q.session_id == session_id)
  let qs1 := if truthyStr search then
      qs.filter (matchesSearch (lowerStr (search.getD ""))) else qs
  let qs2 := if truthyList tables_filter then
      qs1.filter (intersectsTables (tables_filter.getD [])) else qs1
  let sorted := qs2.mergeSort byCreatedDesc
  (sorted.drop offset).take limit

/-! Favorites and deletion, QueryHistoryManager continued. -/

/-- The inner loop of `add_to_favorites` method 1 on one session's list:
mark the first record whose `id` matches, returning the updated record
and list if found. In-place mutation of the shared object means the
favorites dict receives the very same (updated) record. -/
def markFavInList (qid : String) (favorite_name : Option String)
    (tags : Option (List String)) :
    List QueryRecord → Option (QueryRecord × List QueryRecord)
  | [] => none
  | q :: rest =>
    if q.id == qid then
      let q' := { q with
        is_favorite := true,
        favorite_name := some (if truthyStr favorite_name then
          favorite_name.getD "" else strTake q.question 50),
        tags := if truthyList tags then tags.getD [] else q.tags }
      some (q', q' :: rest)
    else
      (markFavInList qid favorite_name tags rest).map (fun r => (r.1, q :: r.2))

/-- The outer loop of `add_to_favorites` method 1 over
`self.history.values()` in insertion order. -/
def markFavInHistory (qid : String) (fn : Option String)
    (tags : Option (List String)) :
    List (String × List QueryRecord) →
      Option (QueryRecord × List (String × List QueryRecord))
  | [] => none
  | (k, qs) :: rest =>
    match markFavInList qid fn tags qs with
    | some (q', qs') => some (q', (k, qs') :: rest)
    | none => (markFavInHistory qid fn tags rest).map
        (fun r => (r.1, (k, qs) :: r.2))

/-- One comparison step of Python `min(..., key=...created_at)`: strict
improvement only, so ties keep the earlier candidate. -/
def minByCreated (best q : String × QueryRecord) : String × QueryRecord :=
  if q.2.created_at < best.2.created_at then q else best

/-- `min(self.favorites.keys(), key=lambda x: self.favorites[x].created_at)`
paired with its record: the first entry with minimal `created_at`. -/
def oldestFav : List (String × QueryRecord) → Option (String × QueryRecord)
  | [] => none
  | p :: rest => some (rest.foldl minByCreated p)

/-- The record synthesized by the create-new mode of `add_to_favorites`:
`QueryRecord(id=uuid, question, sql, tables or [], 0, 0.0, now,
session_id or "global", True, favorite_name or question[:50], tags or [])`. -/
def newFavoriteRecord (freshId : String) (now : Nat)
    (session_id question sql : Option String) (tables : Option (List String))
    (favorite_name : Option String) (tags : Option (List String)) :
    QueryRecord :=
  { id := freshId, question := question.getD "", sql := sql.getD "",
    tables := tables.getD [], row_count := 0, execution_time_ms := 0,
    created_at := now,
    session_id := if truthyStr session_id then session_id.getD ""
      else "global",
    is_favorite := true,
    favorite_name := some (if truthyStr favorite_name then
      favorite_name.getD "" else strTake (question.getD "") 50),
    tags := tags.getD [] }

/-- `QueryHistoryManager.add_to_favorites`. Method 1 (mark-existing) runs
when `query_id` is truthy and a record with that id is found anywhere in
the history dict — it performs no `max_favorites` check. When method 1
does not fire, method 2 (create-new) runs if `question and sql` is truthy
and does enforce the bound by evicting the oldest favorite. Otherwise the
call returns `None` and changes nothing. -/
def addToFavorites (m : QueryHistoryManager) (freshId : String) (now : Nat)
    (query_id session_id question sql : Option String)
    (tables : Option (List String)) (favorite_name : Option String)
    (tags : Option (List String)) :
    Option QueryRecord × QueryHistoryManager :=
  let tryMark :=
    if truthyStr query_id then
      markFavInHistory (query_id.getD "") favorite_name tags m.history
    else none
  match tryMark with
  | some (q', hist') =>
    (some q', { m with history := hist',
                       favorites := dictSet m.favorites q'.id q' })
  | none =>
    if truthyStr question && truthyStr sql then
      let record := newFavoriteRecord freshId now session_id question sql
        tables favorite_name tags
      let favs1 := dictSet m.favorites record.id record
      let favs2 :=
        if favs1.length > m.max_favorites then
          match oldestFav favs1 with
          | some p => dictDel favs1 p.1
          | none => favs1
        else favs1
      (some record, { m with favorites := favs2 })
    else
      (none, m)

/-- The fallback scan of `remove_from_favorites` on one session's list:
unflag the first record whose `id` matches. -/
def unfavFirstInList (qid : String) :
    List QueryRecord → Option (List QueryRecord)
  | [] => none
  | q :: rest =>
    if q.id == qid then
      some ({ q with is_favorite := false, favorite_name := none } :: rest)
    else
      (unfavFirstInList qid rest).map (fun l => q :: l)

/-- The fallback scan of `remove_from_favorites` over all sessions. -/
def unfavFirstInHistory (qid : String) :
    List (String × List QueryRecord) →
      Option (List (String × List QueryRecord))
  | [] => none
  | (k, qs) :: rest =>
    match unfavFirstInList qid qs with
    | some qs' => some ((k, qs') :: rest)
    | none => (unfavFirstInHistory qid rest).map (fun l => (k, qs) :: l)

/-- `QueryHistoryManager.remove_from_favorites`. If the id keys the
favorites dict: unflag (visible through aliasing on any history copy of
the same record) and delete the dict entry, return `True`. Otherwise scan
the whole history and return `True` for the first record with that id —
whether or not it is currently a favorite. Return `False` only when the
id is found nowhere. -/
def removeFromFavorites (m : QueryHistoryManager) (qid : String) :
    Bool × QueryHistoryManager :=
  if dictMem m.favorites qid then
    (true,
      { m with
        favorites := dictDel m.favorites qid,
        history := m.history.map (fun p =>
          (p.1, p.2.map (fun q =>
            if q.id == qid then { q with is_favorite := false } else q))) })
  else
    match unfavFirstInHistory qid m.history with
    | some h' => (true, { m with history := h' })
    | none => (false, m)

/-- First record with the given id in history-dict iteration order
(used to state when the scanning loops fire). -/
def findInHistory (qid : String) :
    List (String × List QueryRecord) → Option QueryRecord
  | [] => none
  | (_, qs) :: rest =>
    match qs.find? (fun q => q.id == qid) with
    | some q => some q
    | none => findInHistory qid rest

/-- The scan-all-sessions branch of `delete_query`: pop the first record
with the given id. -/
def popFirstInHistory (qid : String) :
    List (String × List QueryRecord) →
      Option (List (String × List QueryRecord))
  | [] => none
  | (k, qs) :: rest =>
    if qs.any (fun q => q.id == qid) then
      some ((k, qs.eraseP (fun q => q.id == qid)) :: rest)
    else
      (popFirstInHistory qid rest).map (fun l => (k, qs) :: l)

/-- `QueryHistoryManager.delete_query`. First silently drops the id from
the favorites dict if present. Then: if `session_id` is truthy and keys
the history dict, filter that session's list and return `True`
unconditionally — even when no record with `query_id` existed there.
Otherwise scan all sessions for the first record with the id; `False`
only when that scan finds nothing. -/
def deleteQuery (m : QueryHistoryManager) (qid : String)
    (session_id : Option String) : Bool × QueryHistoryManager :=
  let m1 := if dictMem m.favorites qid then
      { m with favorites := dictDel m.favorites qid } else m
  if truthyStr session_id && dictMem m1.history (session_id.getD "") then
    let s := session_id.getD ""
    let qs := (dictGet m1.history s).getD []
    (true, { m1 with
      history := dictSet m1.history s (qs.filter (fun q => q.id != qid)) })
  else
    match popFirstInHistory qid m1.history with
    | some h' => (true, { m1 with history := h' })
    | none => (false, m1)

/-! The session manager of src/plugins/session_manager.py. -/

/-- `AuthSession`. Time is in minutes; `db_config` is the opaque blob. -/
structure AuthSession where
  session_id : String
  username : String
  db_config : String
  created_at : Nat
  last_activity : Nat
  ttl_minutes : Nat
deriving DecidableEq

/-- `AuthSession.is_expired`:
`datetime.now() - last_activity > timedelta(minutes=ttl_minutes)`. -/
def authIsExpired (s : AuthSession) (now : Nat) : Bool :=
  s.ttl_minutes < now - s.last_activity

/-- The mutable state of `SessionManager`. -/
structure SessionManager where
  sessions : List (String × AuthSession)
  session_ttl_minutes : Nat

/-- `SessionManager.create_session`. -/
def createSession (m : SessionManager) (freshId : String) (now : Nat)
    (username db_config : String) : String × SessionManager :=
  let s : AuthSession :=
    { session_id := freshId, username := username,
      db_config := db_config, created_at := now, last_activity := now,
      ttl_minutes := m.session_ttl_minutes }
  (freshId, { m with sessions := dictSet m.sessions freshId s })

/-- `SessionManager.get_session`: `None` if absent; on expiry delete the
entry and return `None`; otherwise touch (`last_activity = now`) and
return the session. -/
def getSession (m : SessionManager) (sid : String) (now : Nat) :
    Option AuthSession × SessionManager :=
  match dictGet m.sessions sid with
  | none => (none, m)
  | some s =>
    if authIsExpired s now then
      (none, { m with sessions := dictDel m.sessions sid })
    else
      let s' := { s with last_activity := now }
      (some s', { m with sessions := dictSet m.sessions sid s' })

/-! The conversation manager of src/core/conversation_manager.py. -/

/-- `ConversationMessage`. -/
structure ConversationMessage where
  role : String
  content : String
  metadata : List (String × String)
  timestamp : Nat
deriving DecidableEq

/-- `ConversationSession`. -/
structure ConversationSession where
  session_id : String
  messages : List ConversationMessage
  created_at : Nat
  last_activity : Nat
deriving DecidableEq

/-- `ConversationSession.is_expired(timeout_minutes)`:
`datetime.now() - last_activity > timedelta(minutes=timeout_minutes)`. -/
def convIsExpired (s : ConversationSession) (timeout now : Nat) : Bool :=
  timeout < now - s.last_activity

/-- The mutable state of `ConversationManager`
(`max_context_messages = 10` in the source). -/
structure ConversationManager where
  sessions : List (String × ConversationSession)
  session_timeout_minutes : Nat
  max_context_messages : Nat

/-- The session object built by `ConversationManager.create_session`. -/
def freshConv (freshId : String) (now : Nat) : ConversationSession :=
  { session_id := freshId, messages := [], created_at := now,
    last_activity := now }

/-- `ConversationManager.get_or_create_session`. A truthy id that keys a
live session is returned as-is (no touch). A truthy id that keys an
expired session: the entry is deleted and a session under a fresh id is
created. Any other case (no id, empty id, unknown id): a session under a
fresh id is created. -/
def getOrCreateSession (m : ConversationManager) (session_id : Option String)
    (freshId : String) (now : Nat) :
    String × ConversationSession × ConversationManager :=
  let live := if truthyStr session_id then
      dictGet m.sessions (session_id.getD "") else none
  match live with
  | some s =>
    if convIsExpired s m.session_timeout_minutes now then
      let s' := freshConv freshId now
      (freshId, s',
        { m with sessions :=
            dictSet (dictDel m.sessions (session_id.getD "")) freshId s' })
    else
      (session_id.getD "", s, m)
  | none =>
    let s' := freshConv freshId now
    (freshId, s', { m with sessions := dictSet m.sessions freshId s' })

/-- `ConversationManager.add_message`: `get_or_create_session`, then the
session's `add_message` (append + update `last_activity`). Note the
message lands in whatever session `get_or_create_session` yielded, which
for an unknown caller-supplied id is a freshly allocated one. -/
def convAddMessage (m : ConversationManager) (session_id : Option String)
    (role content : String) (metadata : List (String × String))
    (freshId : String) (now : Nat) : ConversationManager :=
  let r := getOrCreateSession m session_id freshId now
  let s := r.2.1
  let s' := { s with
    messages := s.messages ++
      [{ role := role, content := content, metadata := metadata,
         timestamp := now }],
    last_activity := now }
  { r.2.2 with sessions := dictSet r.2.2.sessions r.1 s' }

/-- `ConversationSession.get_llm_context`: the last `maxMessages` messages
in `{role, content}` form. -/
def getLlmContext (s : ConversationSession) (maxMessages : Nat) :
    List (String × String) :=
  (lastN maxMessages s.messages).map (fun msg => (msg.role, msg.content))

/-- `ConversationManager.get_conversation_context`: runs
`get_or_create_session` (which can allocate or delete sessions), then
returns the optional system entry followed by the last
`max_context_messages` messages. -/
def getConversationContext (m : ConversationManager)
    (session_id : Option String) (system_prompt : Option String)
    (freshId : String) (now : Nat) :
    List (String × String) × ConversationManager :=
  let r := getOrCreateSession m session_id freshId now
  let sysPart := if truthyStr system_prompt then
      [("system", system_prompt.getD "")] else []
  (sysPart ++ getLlmContext r.2.1 m.max_context_messages, r.2.2)

/-- `ConversationManager.get_session_history`: the stored message list of
the session, `[]` when the id is absent. -/
def getSessionHistory (m : ConversationManager) (sid : String) :
    List ConversationMessage :=
  match dictGet m.sessions sid with
  | some s => s.messages
  | none => []

/-! The percentile helper of src/api/analytics_routes.py. -/

/-- Python `int()` on a rational: truncation toward zero. -/
def pyInt (q : ℚ) : ℤ :=
  if 0 ≤ q then ⌊q⌋ else -⌊-q⌋

/-- The `percentile` helper of `get_performance_metrics`:
`k = (len(data)-1)*p/100; f = int(k); c = f+1 if f < len(data)-1 else f;
data[f] + (k-f)*(data[c]-data[f])`, and `0` for empty data. -/
def percentile (data : List ℚ) (p : ℚ) : ℚ :=
  if data.isEmpty then 0
  else
    let k : ℚ := ((data.length : ℚ) - 1) * p / 100
    let f : ℤ := pyInt k
    let c : ℤ := if f < (data.length : ℤ) - 1 then f + 1 else f
    data.getD f.toNat 0 + (k - (f : ℚ)) * (data.getD c.toNat 0 - data.getD f.toNat 0)

/-- The same interpolation written the way the specification words it:
`k=(n-1)*p/100`, `f=floor(k)`, `c=min(f+1, n-1)`,
result `data[f] + (k-f)*(data[c]-data[f])`. -/
def percentileSpec (data : List ℚ) (p : ℚ) : ℚ :=
  if data.isEmpty then 0
  else
    let k : ℚ := ((data.length : ℚ) - 1) * p / 100
    let f : ℤ := ⌊k⌋
    let c : ℤ := min (f + 1) ((data.length : ℤ) - 1)
    data.getD f.toNat 0 + (k - (f : ℚ)) * (data.getD c.toNat 0 - data.getD f.toNat 0)

/-! Concrete fixtures used by the claim theorems, witnesses and
counterexamples. -/

/-- A fresh `QueryHistoryManager` with the source's default bounds
(`max_history_per_session=50`, `max_favorites=100`). -/
def emptyQHM : QueryHistoryManager :=
  { history := [], favorites := [],
    max_history_per_session := 50, max_favorites := 100 }

/-- An empty two-tier history system. -/
def stC1 : SystemState := { qh := emptyQHM, log := [] }

/-- Iterate `n` `add_query` calls with identical normalized SQL for session
`"s"` (distinct fresh ids and timestamps). -/
def addSameSqlN : Nat → SystemState → SystemState
  | 0, st => st
  | n + 1, st =>
    systemAddQuery (addSameSqlN n st) (toString (n + 1)) (n + 1) "s"
      "show one" "SELECT 1" ["t"] 0 0 []

/-- A record present only in the durable log. -/
def recC2 : QueryRecord :=
  { id := "r2", question := "count rows", sql := "select count(1) from t",
    tables := ["t"], row_count := 1, execution_time_ms := 0, created_at := 3,
    session_id := "s", is_favorite := false, favorite_name := none,
    tags := [] }

/-- A system whose durable log holds `recC2` while the cache is empty. -/
def stC2 : SystemState := { qh := emptyQHM, log := [recC2] }

/-- A cached history record used by the `get_history` witness. -/
def recW2 : QueryRecord :=
  { id := "w2", question := "Count the rows", sql := "select count(1) from t",
    tables := ["t"], row_count := 1, execution_time_ms := 0, created_at := 4,
    session_id := "s", is_favorite := false, favorite_name := none,
    tags := [] }

/-- A second cached record that does not match the search `"count"`. -/
def recW2b : QueryRecord :=
  { id := "w2b", question := "list names", sql := "select name from u",
    tables := ["u"], row_count := 2, execution_time_ms := 0, created_at := 5,
    session_id := "s", is_favorite := false, favorite_name := none,
    tags := [] }

/-- A manager whose cache holds `recW2` and `recW2b` for session `"s"`. -/
def mgrC2w : QueryHistoryManager :=
  { history := [("s", [recW2, recW2b])], favorites := [],
    max_history_per_session := 50, max_favorites := 100 }

/-- An existing favorite (oldest `created_at`). -/
def favC3 : QueryRecord :=
  { id := "f3", question := "old favorite", sql := "select 0",
    tables := [], row_count := 0, execution_time_ms := 0, created_at := 0,
    session_id := "s", is_favorite := true, favorite_name := some "old",
    tags := [] }

/-- A non-favorite history record that mark-existing mode will flag. -/
def recC3 : QueryRecord :=
  { id := "q3", question := "newer query", sql := "select 3",
    tables := [], row_count := 0, execution_time_ms := 0, created_at := 1,
    session_id := "s", is_favorite := false, favorite_name := none,
    tags := [] }

/-- A manager already at its `max_favorites = 1` bound. -/
def mgrC3 : QueryHistoryManager :=
  { history := [("s", [recC3])], favorites := [("f3", favC3)],
    max_history_per_session := 50, max_favorites := 1 }

/-- A concrete auth session (created at time 0, TTL 480 minutes). -/
def sC4 : AuthSession :=
  { session_id := "a", username := "u", db_config := "cfg",
    created_at := 0, last_activity := 0, ttl_minutes := 480 }

/-- A session store holding `sC4`. -/
def mC4 : SessionManager :=
  { sessions := [("a", sC4)], session_ttl_minutes := 480 }

/-- A history record that is not a favorite (for `remove_from_favorites`). -/
def recC6 : QueryRecord :=
  { id := "q6", question := "plain history entry", sql := "select 6",
    tables := ["t"], row_count := 0, execution_time_ms := 0, created_at := 0,
    session_id := "s", is_favorite := false, favorite_name := none,
    tags := [] }

/-- A manager with `recC6` in history and an empty favorites dict. -/
def mgrC6 : QueryHistoryManager :=
  { history := [("s", [recC6])], favorites := [],
    max_history_per_session := 50, max_favorites := 100 }

/-- A record that is a favorite, for the `remove_from_favorites` witness. -/
def favC6 : QueryRecord :=
  { id := "f6", question := "kept", sql := "select 66",
    tables := [], row_count := 0, execution_time_ms := 0, created_at := 0,
    session_id := "s", is_favorite := true, favorite_name := some "kept",
    tags := [] }

/-- A manager whose favorites dict holds `favC6`. -/
def mgrC6w : QueryHistoryManager :=
  { history := [], favorites := [("f6", favC6)],
    max_history_per_session := 50, max_favorites := 100 }

/-- A history record for the `delete_query` counterexample. -/
def recC7 : QueryRecord :=
  { id := "a7", question := "some question", sql := "select 7",
    tables := [], row_count := 0, execution_time_ms := 0, created_at := 0,
    session_id := "s", is_favorite := false, favorite_name := none,
    tags := [] }

/-- A manager whose history has session `"s"` containing only `recC7`. -/
def mgrC7 : QueryHistoryManager :=
  { history := [("s", [recC7])], favorites := [],
    max_history_per_session := 50, max_favorites := 100 }

/-- An empty conversation store with the source's defaults
(timeout 60 minutes, context window 10). -/
def emptyConvMgr : ConversationManager :=
  { sessions := [], session_timeout_minutes := 60,
    max_context_messages := 10 }

/-- A conversation message fixture. -/
def msgW (i : Nat) : ConversationMessage :=
  { role := "user", content := toString i, metadata := [], timestamp := i }

/-- A live conversation session holding two messages. -/
def convSessW : ConversationSession :=
  { session_id := "c", messages := [msgW 1, msgW 2], created_at := 0,
    last_activity := 2 }

/-- A conversation store holding `convSessW`. -/
def convMgrW : ConversationManager :=
  { sessions := [("c", convSessW)], session_timeout_minutes := 60,
    max_context_messages := 10 }

/-! Library lemmas about the dictionary model. -/

theorem dictGet_dictSet_self {α : Type} (d : List (String × α)) (k : String)
    (v : α) : dictGet (dictSet d k v) k = some v := by
  induction d with
  | nil => simp [dictGet, dictSet]
  | cons p rest ih =>
    by_cases hk : p.1 == k
    · simp [dictGet, dictSet, hk]
    · simp [dictGet, dictSet, hk, ih]

theorem dictGet_dictSet_ne {α : Type} (d : List (String × α)) (k k' : String)
    (v : α) (h : ¬ k = k') : dictGet (dictSet d k v) k' = dictGet d k' := by
  induction d with
  | nil => simp [dictGet, dictSet, h]
  | cons p rest ih =>
    by_cases hk : p.1 == k
    · have hp : p.1 = k := by simpa using hk
      simp [dictGet, dictSet, hk, hp, h]
    · by_cases hk' : p.1 == k'
      · simp [dictGet, dictSet, hk, hk']
      · simp [dictGet, dictSet, hk, hk', ih]

theorem dictGet_eq_none_of_not_mem_keys {α : Type} (d : List (String × α))
    (k : String) (h : k ∉ d.map Prod.fst) : dictGet d k = none := by
  induction d with
  | nil => rfl
  | cons p rest ih =>
    simp only [List.map_cons, List.mem_cons] at h
    push_neg at h
    have hk : ¬ p.1 == k := by
      simp only [beq_iff_eq]
      exact fun hc => h.1 hc.symm
    simp [dictGet, hk, ih h.2]

theorem dictGet_dictDel_self {α : Type} (d : List (String × α)) (k : String)
    (hnd : (d.map Prod.fst).Nodup) : dictGet (dictDel d k) k = none := by
  induction d with
  | nil => simp [dictGet, dictDel]
  | cons p rest ih =>
    simp only [List.map_cons, List.nodup_cons] at hnd
    by_cases hk : p.1 == k
    · have hp : p.1 = k := by simpa using hk
      simp only [dictDel, hk, if_pos rfl]
      exact dictGet_eq_none_of_not_mem_keys rest k (hp ▸ hnd.1)
    · simp [dictGet, dictDel, hk, ih hnd.2]

theorem dictGet_dictDel_ne {α : Type} (d : List (String × α)) (k k' : String)
    (h : ¬ k = k') : dictGet (dictDel d k) k' = dictGet d k' := by
  induction d with
  | nil => simp [dictGet, dictDel]
  | cons p rest ih =>
    by_cases hk : p.1 == k
    · have hp : p.1 = k := by simpa using hk
      have : ¬ p.1 == k' := by simp [hp]; simpa using h
      simp [dictGet, dictDel, hk, this]
    · simp [dictGet, dictDel, hk, ih]

theorem length_dictSet_mem {α : Type} (d : List (String × α)) (k : String)
    (v : α) (h : dictMem d k = true) :
    (dictSet d k v).length = d.length := by
  induction d with
  | nil => simp [dictMem, dictGet] at h
  | cons p rest ih =>
    by_cases hk : p.1 == k
    · simp [dictSet, hk]
    · simp only [dictMem, dictGet, hk, if_neg (by simpa using hk)] at h
      simp [dictSet, hk, ih h]

theorem length_dictSet_new {α : Type} (d : List (String × α)) (k : String)
    (v : α) (h : dictMem d k = false) :
    (dictSet d k v).length = d.length + 1 := by
  induction d with
  | nil => simp [dictSet]
  | cons p rest ih =>
    by_cases hk : p.1 == k
    · simp [dictMem, dictGet, hk] at h
    · simp only [dictMem, dictGet, hk, if_neg (by simpa using hk)] at h
      simp [dictSet, hk, ih h]

theorem length_dictDel_mem {α : Type} (d : List (String × α)) (k : String)
    (h : dictMem d k = true) :
    (dictDel d k).length + 1 = d.length := by
  induction d with
  | nil => simp [dictMem, dictGet] at h
  | cons p rest ih =>
    by_cases hk : p.1 == k
    · simp [dictDel, hk]
    · simp only [dictMem, dictGet, hk, if_neg (by simpa using hk)] at h
      simp [dictDel, hk, ih h]

theorem dictDel_sublist {α : Type} (d : List (String × α)) (k : String) :
    List.Sublist (dictDel d k) d := by
  induction d with
  | nil => simp [dictDel]
  | cons q rest ih =>
    by_cases hk : q.1 == k
    · simp only [dictDel, hk, if_pos rfl]
      exact List.sublist_cons_self q rest
    · simp only [dictDel, hk, if_neg (by simpa using hk)]
      exact ih.cons₂ q

theorem not_mem_keys_of_dictGet_eq_none {α : Type} (d : List (String × α))
    (k : String) (h : dictGet d k = none) : k ∉ d.map Prod.fst := by
  induction d with
  | nil => simp
  | cons p rest ih =>
    by_cases hk : p.1 == k
    · simp [dictGet, hk] at h
    · simp only [dictGet, hk, if_neg (by simpa using hk)] at h
      simp only [List.map_cons, List.mem_cons]
      push_neg
      exact ⟨fun hc => (by simpa using hk : ¬ p.1 = k) hc.symm, ih h⟩

theorem keys_dictSet_new {α : Type} (d : List (String × α)) (k : String)
    (v : α) (h : dictMem d k = false) :
    (dictSet d k v).map Prod.fst = d.map Prod.fst ++ [k] := by
  induction d with
  | nil => simp [dictSet]
  | cons p rest ih =>
    by_cases hk : p.1 == k
    · simp [dictMem, dictGet, hk] at h
    · simp only [dictMem, dictGet, hk, if_neg (by simpa using hk)] at h
      simp [dictSet, hk, ih h]

theorem length_dictSet_le {α : Type} (d : List (String × α)) (k : String)
    (v : α) : (dictSet d k v).length ≤ d.length + 1 := by
  by_cases h : dictMem d k = true
  · rw [length_dictSet_mem d k v h]
    omega
  · rw [length_dictSet_new d k v (by simpa using h)]

theorem mem_dictDel_of_ne {α : Type} (d : List (String × α)) (k : String)
    (p : String × α) (hp : p ∈ d) (hne : ¬ p.1 = k) : p ∈ dictDel d k := by
  induction d with
  | nil => simp at hp
  | cons q rest ih =>
    by_cases hq : q.1 == k
    · simp only [dictDel, hq, if_pos rfl]
      rcases List.mem_cons.mp hp with rfl | h
      · exact absurd (by simpa using hq) hne
      · exact h
    · simp only [dictDel, hq, if_neg (by simpa using hq)]
      rcases List.mem_cons.mp hp with rfl | h
      · exact List.mem_cons_self _ _
      · exact List.mem_cons_of_mem _ (ih h)

theorem entry_eq_of_keys_nodup {α : Type} (d : List (String × α))
    (hnd : (d.map Prod.fst).Nodup) (p q : String × α) (hp : p ∈ d)
    (hq : q ∈ d) (hk : p.1 = q.1) : p = q := by
  induction d with
  | nil => simp at hp
  | cons a rest ih =>
    simp only [List.map_cons, List.nodup_cons] at hnd
    rcases List.mem_cons.mp hp with rfl | hp' <;>
      rcases List.mem_cons.mp hq with rfl | hq'
    · rfl
    · exact (hnd.1 (by rw [hk]; exact List.mem_map_of_mem Prod.fst hq')).elim
    · exact (hnd.1 (by rw [← hk]; exact List.mem_map_of_mem Prod.fst hp')).elim
    · exact ih hnd.2 hp' hq'

/-! Lemmas about the argmin fold of the favorites eviction. -/

theorem minByCreated_le_left (a q : String × QueryRecord) :
    (minByCreated a q).2.created_at ≤ a.2.created_at := by
  unfold minByCreated
  split <;> omega

theorem minByCreated_le_right (a q : String × QueryRecord) :
    (minByCreated a q).2.created_at ≤ q.2.created_at := by
  unfold minByCreated
  split <;> omega

theorem minByCreated_cases (a q : String × QueryRecord) :
    minByCreated a q = a ∨ minByCreated a q = q := by
  unfold minByCreated
  split
  · exact Or.inr rfl
  · exact Or.inl rfl

theorem foldl_minByCreated_mem (l : List (String × QueryRecord))
    (a : String × QueryRecord) :
    l.foldl minByCreated a = a ∨ l.foldl minByCreated a ∈ l := by
  induction l generalizing a with
  | nil => exact Or.inl rfl
  | cons b bs ih =>
    simp only [List.foldl_cons]
    rcases ih (minByCreated a b) with h | h
    · rcases minByCreated_cases a b with hc | hc
      · exact Or.inl (h.trans hc)
      · right
        rw [h, hc]
        exact List.mem_cons_self b bs
    · right
      exact List.mem_cons_of_mem b h

theorem foldl_minByCreated_le (l : List (String × QueryRecord))
    (a : String × QueryRecord) :
    (l.foldl minByCreated a).2.created_at ≤ a.2.created_at ∧
    ∀ q ∈ l, (l.foldl minByCreated a).2.created_at ≤ q.2.created_at := by
  induction l generalizing a with
  | nil => exact ⟨Nat.le_refl _, by simp⟩
  | cons b bs ih =>
    simp only [List.foldl_cons]
    have h := ih (minByCreated a b)
    refine ⟨h.1.trans (minByCreated_le_left a b), ?_⟩
    intro q hq
    rcases List.mem_cons.mp hq with rfl | hq'
    · exact h.1.trans (minByCreated_le_right a q)
    · exact h.2 q hq'

theorem oldestFav_mem (l : List (String × QueryRecord))
    (p : String × QueryRecord) (h : oldestFav l = some p) : p ∈ l := by
  cases l with
  | nil => simp [oldestFav] at h
  | cons a rest =>
    simp only [oldestFav, Option.some.injEq] at h
    rcases foldl_minByCreated_mem rest a with h0 | h0
    · have hpa : p = a := by rw [← h, h0]
      simp [hpa]
    · have : p ∈ rest := by rwa [h] at h0
      exact List.mem_cons_of_mem a this

theorem oldestFav_le (l : List (String × QueryRecord))
    (p : String × QueryRecord) (h : oldestFav l = some p) :
    ∀ q ∈ l, p.2.created_at ≤ q.2.created_at := by
  cases l with
  | nil => simp [oldestFav] at h
  | cons a rest =>
    simp only [oldestFav, Option.some.injEq] at h
    intro q hq
    subst h
    rcases List.mem_cons.mp hq with rfl | hq'
    · exact (foldl_minByCreated_le rest q).1
    · exact (foldl_minByCreated_le rest a).2 q hq'

/-! Correspondence lemmas between the scanning loops and `findInHistory`. -/

theorem any_eq_find_isSome {α : Type} (p : α → Bool) (l : List α) :
    l.any p = (l.find? p).isSome := by
  induction l with
  | nil => rfl
  | cons a rest ih =>
    by_cases hp : p a
    · simp [List.any, List.find?, hp]
    · simp [List.any, List.find?, hp, ih]

theorem unfavFirstInList_isSome (qid : String) (qs : List QueryRecord) :
    (unfavFirstInList qid qs).isSome =
      (qs.find? (fun q => q.id == qid)).isSome := by
  induction qs with
  | nil => rfl
  | cons q rest ih =>
    by_cases hq : q.id == qid
    · simp [unfavFirstInList, List.find?, hq]
    · simp [unfavFirstInList, List.find?, hq, ih]

theorem unfavFirstInHistory_isSome (qid : String)
    (h : List (String × List QueryRecord)) :
    (unfavFirstInHistory qid h).isSome = (findInHistory qid h).isSome := by
  induction h with
  | nil => rfl
  | cons p rest ih =>
    obtain ⟨k, qs⟩ := p
    cases hf : qs.find? (fun q => q.id == qid) with
    | some q =>
      have hs : (unfavFirstInList qid qs).isSome = true := by
        rw [unfavFirstInList_isSome, hf]
        rfl
      cases hu : unfavFirstInList qid qs with
      | none => rw [hu] at hs; simp at hs
      | some qs' => simp [unfavFirstInHistory, findInHistory, hu, hf]
    | none =>
      have hs : (unfavFirstInList qid qs).isSome = false := by
        rw [unfavFirstInList_isSome, hf]
        rfl
      cases hu : unfavFirstInList qid qs with
      | some qs' => rw [hu] at hs; simp at hs
      | none => simp [unfavFirstInHistory, findInHistory, hu, hf, ih]

theorem popFirstInHistory_isSome (qid : String)
    (h : List (String × List QueryRecord)) :
    (popFirstInHistory qid h).isSome = (findInHistory qid h).isSome := by
  induction h with
  | nil => rfl
  | cons p rest ih =>
    obtain ⟨k, qs⟩ := p
    by_cases ha : qs.any (fun q => q.id == qid) = true
    · have hf : (qs.find? (fun q => q.id == qid)).isSome = true := by
        rw [← any_eq_find_isSome]
        exact ha
      cases hq : qs.find? (fun q => q.id == qid) with
      | none => rw [hq] at hf; simp at hf
      | some q => simp [popFirstInHistory, findInHistory, ha, hq]
    · have hf : (qs.find? (fun q => q.id == qid)).isSome = false := by
        rw [← any_eq_find_isSome]
        simpa using ha
      cases hq : qs.find? (fun q => q.id == qid) with
      | some q => rw [hq] at hf; simp at hf
      | none => simp [popFirstInHistory, findInHistory, ha, hq, ih]

/-! Sortedness facts for `get_history`. -/

theorem byCreatedDesc_trans (a b c : QueryRecord)
    (h1 : byCreatedDesc a b = true) (h2 : byCreatedDesc b c = true) :
    byCreatedDesc a c = true := by
  simp only [byCreatedDesc, Nat.ble_eq] at h1 h2 ⊢
  omega

theorem byCreatedDesc_total (a b : QueryRecord) :
    (byCreatedDesc a b || byCreatedDesc b a) = true := by
  simp only [byCreatedDesc, Nat.ble_eq, Bool.or_eq_true]
  omega

theorem length_lastN {α : Type} (n : Nat) (l : List α) :
    (lastN n l).length ≤ n := by
  simp only [lastN, List.length_drop]
  omega

/-! Theorems settling the specification claims. -/

/-- Claim C1 (evaluation at the failing input): six consecutive `add_query`
calls with identical normalized SQL for one session leave exactly one entry
in the in-memory recency list, but the durable `queries` table still holds
0 records — not the 6 the claim requires — because `add_query` writes only
the in-memory dict and `AnalyticsDB.save_query` has no caller anywhere in
the repository. -/
theorem c1_add_query_log_eval :
    ((dictGet (addSameSqlN 6 stC1).qh.history "s").getD []).length = 1 ∧
    (addSameSqlN 6 stC1).log.length = 0 :=
  ⟨by decide, rfl⟩

/-- Claim C4: `SessionManager.get_session` returns `None` when the id is
absent (store unchanged), returns `None` and evicts the entry when
`now - last_activity > ttl`, and otherwise touches (`last_activity = now`)
before returning; consequently, under a monotone clock, `last_activity` is
non-decreasing across successive `get` calls, and a session untouched for
more than its TTL is absent on the next `get`. -/
theorem c4_get_session_sliding_ttl (m : SessionManager) (sid : String)
    (now : Nat) :
    (dictGet m.sessions sid = none → getSession m sid now = (none, m)) ∧
    (∀ s, dictGet m.sessions sid = some s → authIsExpired s now = true →
      (getSession m sid now).1 = none ∧
      ((m.sessions.map Prod.fst).Nodup →
        dictGet (getSession m sid now).2.sessions sid = none)) ∧
    (∀ s, dictGet m.sessions sid = some s → authIsExpired s now = false →
      getSession m sid now =
        (some { s with last_activity := now },
          { m with sessions :=
              dictSet m.sessions sid { s with last_activity := now } })) ∧
    (∀ s1 m1 later, getSession m sid now = (some s1, m1) → now ≤ later →
      (∀ s2, (getSession m1 sid later).1 = some s2 →
        s1.last_activity ≤ s2.last_activity) ∧
      (s1.ttl_minutes < later - now →
        (getSession m1 sid later).1 = none)) := by
  refine ⟨?_, ?_, ?_, ?_⟩
  · intro h
    simp [getSession, h]
  · intro s hs hexp
    refine ⟨by simp [getSession, hs, hexp], ?_⟩
    intro hnd
    simp only [getSession, hs, hexp, if_pos]
    exact dictGet_dictDel_self m.sessions sid hnd
  · intro s hs hlive
    simp [getSession, hs, hlive]
  · intro s1 m1 later hrun hle
    cases hg : dictGet m.sessions sid with
    | none => simp [getSession, hg] at hrun
    | some s =>
      by_cases hexp : authIsExpired s now = true
      · simp [getSession, hg, hexp] at hrun
      · have hexp' : authIsExpired s now = false := by simpa using hexp
        simp only [getSession, hg, hexp', Bool.false_eq_true, if_false,
          Prod.mk.injEq, Option.some.injEq] at hrun
        obtain ⟨h1, h2⟩ := hrun
        subst h1
        subst h2
        have hm1 : dictGet
            (dictSet m.sessions sid { s with last_activity := now }) sid =
            some { s with last_activity := now } :=
          dictGet_dictSet_self m.sessions sid { s with last_activity := now }
        constructor
        · intro s2 h2get
          by_cases hexp2 :
              authIsExpired { s with last_activity := now } later = true
          · simp [getSession, hm1, hexp2] at h2get
          · have hexp2' :
                authIsExpired { s with last_activity := now } later = false :=
              by simpa using hexp2
            simp only [getSession, hm1, hexp2', Bool.false_eq_true, if_false,
              Option.some.injEq] at h2get
            rw [← h2get]
            exact hle
        · intro httl
          have hexp2 :
              authIsExpired { s with last_activity := now } later = true := by
            simp only [authIsExpired, decide_eq_true_eq]
            exact httl
          simp [getSession, hm1, hexp2]

/-- Witness for claim C4: a concrete store; a `get` at time 5 touches the
session to `last_activity = 5`, and a second `get` at time 486 (elapsed
481 > TTL 480) finds it expired. -/
theorem c4_get_session_sliding_ttl_witness :
    getSession mC4 "a" 5 =
      (some { sC4 with last_activity := 5 },
        { mC4 with sessions :=
            dictSet mC4.sessions "a" { sC4 with last_activity := 5 } }) ∧
    (getSession
      { mC4 with sessions :=
          dictSet mC4.sessions "a" { sC4 with last_activity := 5 } }
      "a" 486).1 = none := by
  constructor
  · exact (c4_get_session_sliding_ttl mC4 "a" 5).2.2.1 sC4 rfl rfl
  · exact ((c4_get_session_sliding_ttl mC4 "a" 5).2.2.2
      { sC4 with last_activity := 5 }
      { mC4 with sessions :=
          dictSet mC4.sessions "a" { sC4 with last_activity := 5 } }
      486 ((c4_get_session_sliding_ttl mC4 "a" 5).2.2.1 sC4 rfl rfl)
      (by decide)).2 (by decide)

/-- Claim C5: `add_to_favorites` called with a falsy `query_id` and without
both a truthy `question` and a truthy `sql` returns `None` and has no side
effects: the manager state is returned unchanged. -/
theorem c5_add_to_favorites_no_info (m : QueryHistoryManager)
    (freshId : String) (now : Nat)
    (query_id session_id question sql : Option String)
    (tables : Option (List String)) (favorite_name : Option String)
    (tags : Option (List String)) (hq : truthyStr query_id = false)
    (hqs : (truthyStr question && truthyStr sql) = false) :
    addToFavorites m freshId now query_id session_id question sql tables
      favorite_name tags = (none, m) := by
  simp [addToFavorites, hq, hqs]

/-- Witness for claim C5: the no-argument call on a concrete manager. -/
theorem c5_add_to_favorites_no_info_witness :
    addToFavorites emptyQHM "fresh" 0 none none none none none none none =
      (none, emptyQHM) :=
  c5_add_to_favorites_no_info emptyQHM "fresh" 0 none none none none none
    none none rfl rfl

/-- Claim C10: `add_message` with a caller-supplied id absent from the
conversation store puts the message into a session allocated under the
fresh id; afterwards the store still has no session under the original id
and `get_session_history` for the original id returns `[]`. -/
theorem c10_add_message_unknown_id (m : ConversationManager) (sid : String)
    (role content : String) (metadata : List (String × String))
    (freshId : String) (now : Nat)
    (habs : dictGet m.sessions sid = none) (hfresh : ¬ freshId = sid) :
    dictGet (convAddMessage m (some sid) role content metadata freshId
        now).sessions sid = none ∧
    getSessionHistory (convAddMessage m (some sid) role content metadata
        freshId now) sid = [] ∧
    (dictGet (convAddMessage m (some sid) role content metadata freshId
        now).sessions freshId).map ConversationSession.messages =
      some [{ role := role, content := content, metadata := metadata,
              timestamp := now }] := by
  have hg : getOrCreateSession m (some sid) freshId now =
      (freshId, freshConv freshId now,
        { m with sessions :=
            dictSet m.sessions freshId (freshConv freshId now) }) := by
    simp [getOrCreateSession, habs]
  have hget : dictGet (convAddMessage m (some sid) role content metadata
      freshId now).sessions sid = none := by
    simp only [convAddMessage, hg]
    rw [dictGet_dictSet_ne _ _ _ _ hfresh]
    rw [dictGet_dictSet_ne _ _ _ _ hfresh]
    exact habs
  refine ⟨hget, ?_, ?_⟩
  · simp [getSessionHistory, hget]
  · simp only [convAddMessage, hg]
    rw [dictGet_dictSet_self]
    simp [freshConv]

/-- Witness for claim C10: empty store, unknown id `"x"`, fresh id `"f"`. -/
theorem c10_add_message_unknown_id_witness :
    dictGet (convAddMessage emptyConvMgr (some "x") "user" "hi" [] "f"
        1).sessions "x" = none ∧
    getSessionHistory (convAddMessage emptyConvMgr (some "x") "user" "hi" []
        "f" 1) "x" = [] ∧
    (dictGet (convAddMessage emptyConvMgr (some "x") "user" "hi" [] "f"
        1).sessions "f").map ConversationSession.messages =
      some [{ role := "user", content := "hi", metadata := [],
              timestamp := 1 }] :=
  c10_add_message_unknown_id emptyConvMgr "x" "user" "hi" [] "f" 1 rfl
    (by decide)

/-- Claim C9 counterexample: `get_conversation_context` with an id absent
from the store mutates it — the store gains one freshly allocated session,
so the set of conversation sessions is not unchanged. -/
theorem c9_context_counterexample :
    emptyConvMgr.sessions.length = 0 ∧
    (getConversationContext emptyConvMgr (some "x") none "f"
        0).2.sessions.length = 1 :=
  ⟨rfl, rfl⟩

/-- Claim C9 amended: when the given id refers to a live stored session,
`get_conversation_context` returns up to the last `max_context_messages`
(10) messages in role/content form, preceded by the synthetic system entry
when a system prompt is supplied, and does not mutate the store; when the
id is absent or expired, `get_or_create_session` allocates a fresh session
first, mutating the store (see the counterexample). -/
theorem c9_context_live_no_mutation (m : ConversationManager) (sid : String)
    (s : ConversationSession) (sp : Option String) (freshId : String)
    (now : Nat) (hsid : ¬ sid = "") (hs : dictGet m.sessions sid = some s)
    (hlive : convIsExpired s m.session_timeout_minutes now = false) :
    getConversationContext m (some sid) sp freshId now =
      ((if truthyStr sp then [("system", sp.getD "")] else []) ++
        (lastN m.max_context_messages s.messages).map
          (fun msg => (msg.role, msg.content)), m) ∧
    ((lastN m.max_context_messages s.messages).map
        (fun msg => (msg.role, msg.content))).length ≤
      m.max_context_messages := by
  constructor
  · have htr : truthyStr (some sid) = true := by
      simp [truthyStr, hsid]
    simp [getConversationContext, getOrCreateSession, htr, hs, hlive,
      getLlmContext]
  · rw [List.length_map]
    exact length_lastN _ _

/-- Witness for claim C9: a live two-message session with a system prompt;
the store is returned unchanged. -/
theorem c9_context_live_no_mutation_witness :
    getConversationContext convMgrW (some "c") (some "be brief") "f" 3 =
      ([("system", "be brief"), ("user", "1"), ("user", "2")], convMgrW) := by
  have h := (c9_context_live_no_mutation convMgrW "c" convSessW
    (some "be brief") "f" 3 (by decide) rfl rfl).1
  rw [h]
  rfl

/-- Claim C6 counterexample: `remove_from_favorites` on an id that refers
to an existing history record that is not currently a favorite returns
`True`, where the claim demands `False`. -/
theorem c6_remove_counterexample :
    recC6.is_favorite = false ∧
    dictGet mgrC6.favorites "q6" = none ∧
    (removeFromFavorites mgrC6 "q6").1 = true :=
  ⟨rfl, rfl, rfl⟩

/-- Claim C6 amended (corrected): `remove_from_favorites` returns `True`
exactly when the id keys the favorites dict or a record with that id occurs
anywhere in history — including records that are not currently favorites;
`False` only when the id is found nowhere. When the id keys the favorites
dict, the entry is removed from it durably. -/
theorem c6_remove_from_favorites (m : QueryHistoryManager) (qid : String) :
    (removeFromFavorites m qid).1 =
      (dictMem m.favorites qid || (findInHistory qid m.history).isSome) ∧
    ((m.favorites.map Prod.fst).Nodup → dictMem m.favorites qid = true →
      dictGet (removeFromFavorites m qid).2.favorites qid = none) := by
  constructor
  · by_cases hf : dictMem m.favorites qid = true
    · simp [removeFromFavorites, hf]
    · have hf' : dictMem m.favorites qid = false := by simpa using hf
      cases hu : unfavFirstInHistory qid m.history with
      | some h' =>
        have hfind : (findInHistory qid m.history).isSome = true := by
          rw [← unfavFirstInHistory_isSome, hu]
          rfl
        simp [removeFromFavorites, hf', hu, hfind]
      | none =>
        have hfind : (findInHistory qid m.history).isSome = false := by
          rw [← unfavFirstInHistory_isSome, hu]
          rfl
        simp [removeFromFavorites, hf', hu, hfind]
  · intro hnd hf
    simp only [removeFromFavorites, hf, if_pos]
    exact dictGet_dictDel_self m.favorites qid hnd

/-- Witness for claim C6 (amended): removing an actual favorite returns
`True` and deletes the dict entry. -/
theorem c6_remove_from_favorites_witness :
    (removeFromFavorites mgrC6w "f6").1 = true ∧
    dictGet (removeFromFavorites mgrC6w "f6").2.favorites "f6" = none := by
  have h := c6_remove_from_favorites mgrC6w "f6"
  refine ⟨?_, h.2 (by decide) rfl⟩
  rw [h.1]
  rfl

/-- Claim C7 counterexample: `delete_query` with an existing `session_id`
but a `query_id` found in neither store returns `True`, where the claim
demands `False`. -/
theorem c7_delete_counterexample :
    dictGet mgrC7.favorites "zzz" = none ∧
    findInHistory "zzz" mgrC7.history = none ∧
    (deleteQuery mgrC7 "zzz" (some "s")).1 = true :=
  ⟨rfl, rfl, rfl⟩

/-- Claim C7 amended (corrected): `delete_query` always drops the id from
the favorites dict; it returns `True` when the truthy `session_id` keys the
history dict — regardless of whether a record with `query_id` exists — or,
failing that condition, when some session's list contains a record with the
id; `False` only when the named-session condition fails and the id occurs
nowhere. Through the named-session branch, no record with the id remains in
that session's list. -/
theorem c7_delete_query (m : QueryHistoryManager) (qid : String)
    (session_id : Option String) :
    (deleteQuery m qid session_id).1 =
      ((truthyStr session_id && dictMem m.history (session_id.getD "")) ||
        (findInHistory qid m.history).isSome) ∧
    ((m.favorites.map Prod.fst).Nodup →
      dictGet (deleteQuery m qid session_id).2.favorites qid = none) ∧
    ((truthyStr session_id &&
        dictMem m.history (session_id.getD "")) = true →
      ∀ q ∈ (dictGet (deleteQuery m qid session_id).2.history
          (session_id.getD "")).getD [], ¬ q.id = qid) := by
  by_cases hfav : dictMem m.favorites qid = true
  · by_cases hcond : (truthyStr session_id &&
        dictMem m.history (session_id.getD "")) = true
    · refine ⟨?_, ?_, ?_⟩
      · simp [deleteQuery, hfav, hcond]
      · intro hnd
        have hdel : dictGet (dictDel m.favorites qid) qid = none :=
          dictGet_dictDel_self m.favorites qid hnd
        simpa [deleteQuery, hfav, hcond] using hdel
      · intro _ q hq
        simp only [deleteQuery, hfav, hcond, if_true] at hq
        rw [dictGet_dictSet_self] at hq
        simp only [Option.getD_some, List.mem_filter] at hq
        simpa using hq.2
    · have hcond' : (truthyStr session_id &&
          dictMem m.history (session_id.getD "")) = false := by
        simpa using hcond
      cases hpop : popFirstInHistory qid m.history with
      | some h' =>
        have hfind : (findInHistory qid m.history).isSome = true := by
          rw [← popFirstInHistory_isSome, hpop]
          rfl
        refine ⟨?_, ?_, ?_⟩
        · simp [deleteQuery, hfav, hcond', hpop, hfind]
        · intro hnd
          have hdel : dictGet (dictDel m.favorites qid) qid = none :=
            dictGet_dictDel_self m.favorites qid hnd
          simpa [deleteQuery, hfav, hcond', hpop] using hdel
        · intro hc
          simp [hc] at hcond'
      | none =>
        have hfind : (findInHistory qid m.history).isSome = false := by
          rw [← popFirstInHistory_isSome, hpop]
          rfl
        refine ⟨?_, ?_, ?_⟩
        · simp [deleteQuery, hfav, hcond', hpop, hfind]
        · intro hnd
          have hdel : dictGet (dictDel m.favorites qid) qid = none :=
            dictGet_dictDel_self m.favorites qid hnd
          simpa [deleteQuery, hfav, hcond', hpop] using hdel
        · intro hc
          simp [hc] at hcond'
  · have hfav' : dictMem m.favorites qid = false := by simpa using hfav
    have hnone : dictGet m.favorites qid = none := by
      cases ho : dictGet m.favorites qid with
      | none => rfl
      | some v =>
        rw [dictMem, ho] at hfav'
        simp at hfav'
    by_cases hcond : (truthyStr session_id &&
        dictMem m.history (session_id.getD "")) = true
    · refine ⟨?_, ?_, ?_⟩
      · simp [deleteQuery, hfav', hcond]
      · intro _
        simpa [deleteQuery, hfav', hcond] using hnone
      · intro _ q hq
        simp only [deleteQuery, hfav', hcond, if_true, Bool.false_eq_true,
          if_false] at hq
        rw [dictGet_dictSet_self] at hq
        simp only [Option.getD_some, List.mem_filter] at hq
        simpa using hq.2
    · have hcond' : (truthyStr session_id &&
          dictMem m.history (session_id.getD "")) = false := by
        simpa using hcond
      cases hpop : popFirstInHistory qid m.history with
      | some h' =>
        have hfind : (findInHistory qid m.history).isSome = true := by
          rw [← popFirstInHistory_isSome, hpop]
          rfl
        refine ⟨?_, ?_, ?_⟩
        · simp [deleteQuery, hfav', hcond', hpop, hfind]
        · intro _
          simpa [deleteQuery, hfav', hcond', hpop] using hnone
        · intro hc
          simp [hc] at hcond'
      | none =>
        have hfind : (findInHistory qid m.history).isSome = false := by
          rw [← popFirstInHistory_isSome, hpop]
          rfl
        refine ⟨?_, ?_, ?_⟩
        · simp [deleteQuery, hfav', hcond', hpop, hfind]
        · intro _
          simpa [deleteQuery, hfav', hcond', hpop] using hnone
        · intro hc
          simp [hc] at hcond'

/-- Witness for claim C7 (amended): a concrete manager; deleting through the
named-session branch returns `True` and leaves no record with the id. -/
theorem c7_delete_query_witness :
    (deleteQuery mgrC7 "a7" (some "s")).1 = true ∧
    dictGet (deleteQuery mgrC7 "a7" (some "s")).2.favorites "a7" = none ∧
    (∀ q ∈ (dictGet (deleteQuery mgrC7 "a7" (some "s")).2.history
        "s").getD [], ¬ q.id = "a7") := by
  have h := c7_delete_query mgrC7 "a7" (some "s")
  refine ⟨?_, h.2.1 (by simp [mgrC7]), ?_⟩
  · rw [h.1]
    rfl
  · intro q hq
    exact h.2.2 rfl q hq

theorem dictMem_of_mem {α : Type} (d : List (String × α)) (p : String × α)
    (hp : p ∈ d) : dictMem d p.1 = true := by
  induction d with
  | nil => simp at hp
  | cons a rest ih =>
    rcases List.mem_cons.mp hp with rfl | h
    · simp [dictMem, dictGet]
    · by_cases ha : a.1 == p.1
      · simp [dictMem, dictGet, ha]
      · simp only [dictMem, dictGet, ha, if_neg (by simpa using ha)]
        exact ih h

/-- Claim C3 counterexample: with `max_favorites = 1` already reached, the
mark-existing mode of `add_to_favorites` (by `query_id`) adds a second
favorite and performs no eviction: the bound fails for that mode. -/
theorem c3_bound_counterexample :
    mgrC3.favorites.length = mgrC3.max_favorites ∧
    mgrC3.max_favorites = 1 ∧
    (addToFavorites mgrC3 "f" 2 (some "q3") none none none none none
        none).2.favorites.length = 2 :=
  ⟨rfl, rfl, rfl⟩

theorem newFavoriteRecord_id (freshId : String) (now : Nat)
    (session_id question sql : Option String) (tables : Option (List String))
    (favorite_name : Option String) (tags : Option (List String)) :
    (newFavoriteRecord freshId now session_id question sql tables
      favorite_name tags).id = freshId := rfl

/-- Claim C3 amended (corrected): the `max_favorites` bound is enforced
only by the create-new mode of `add_to_favorites`. In that mode (falsy
`query_id`, truthy `question` and `sql`, fresh id): if the favorites count
was at most `max_favorites` before the call, it remains so afterwards, and
an entry present after insertion but absent from the final dict has the
minimal `created_at` among all post-insertion entries. The mark-existing
mode performs no bound check, so the bound does not hold for it (see the
counterexample). -/
theorem c3_create_favorite_bound (m : QueryHistoryManager)
    (freshId : String) (now : Nat) (session_id question sql : Option String)
    (tables : Option (List String)) (favorite_name : Option String)
    (tags : Option (List String))
    (hq : truthyStr question = true) (hsql : truthyStr sql = true)
    (hnd : (m.favorites.map Prod.fst).Nodup)
    (hfresh : dictMem m.favorites freshId = false)
    (hbound : m.favorites.length ≤ m.max_favorites) :
    (addToFavorites m freshId now none session_id question sql tables
        favorite_name tags).2.favorites.length ≤ m.max_favorites ∧
    (∀ p ∈ dictSet m.favorites freshId (newFavoriteRecord freshId now
        session_id question sql tables favorite_name tags),
      p ∉ (addToFavorites m freshId now none session_id question sql
          tables favorite_name tags).2.favorites →
      ∀ q ∈ dictSet m.favorites freshId (newFavoriteRecord freshId now
          session_id question sql tables favorite_name tags),
        p.2.created_at ≤ q.2.created_at) := by
  set favs1 := dictSet m.favorites freshId (newFavoriteRecord freshId now
    session_id question sql tables favorite_name tags) with hfavs1
  have hlen1 : favs1.length = m.favorites.length + 1 := by
    rw [hfavs1]
    exact length_dictSet_new _ _ _ hfresh
  have hfnone : dictGet m.favorites freshId = none := by
    cases ho : dictGet m.favorites freshId with
    | none => rfl
    | some v =>
      rw [dictMem, ho] at hfresh
      simp at hfresh
  have hnotin : freshId ∉ m.favorites.map Prod.fst :=
    not_mem_keys_of_dictGet_eq_none _ _ hfnone
  have hnd1 : (favs1.map Prod.fst).Nodup := by
    rw [hfavs1, keys_dictSet_new _ _ _ hfresh]
    simp [List.nodup_append, hnd, hnotin]
  by_cases hgt : favs1.length > m.max_favorites
  · cases hof : oldestFav favs1 with
    | none =>
      exfalso
      cases hd : favs1 with
      | nil =>
        rw [hd] at hlen1
        simp at hlen1
      | cons a rest =>
        rw [hd] at hof
        simp [oldestFav] at hof
    | some p0 =>
      have hres : (addToFavorites m freshId now none session_id question
          sql tables favorite_name tags).2.favorites = dictDel favs1 p0.1 :=
        by
        have hq' := hq
        have hsql' := hsql
        simp only [truthyStr] at hq' hsql'
        simp [addToFavorites, truthyStr, hq', hsql', newFavoriteRecord_id,
          ← hfavs1, hgt, hof]
      have hp0mem : p0 ∈ favs1 := oldestFav_mem _ _ hof
      constructor
      · rw [hres]
        have hmemk : dictMem favs1 p0.1 = true := dictMem_of_mem _ _ hp0mem
        have hdl := length_dictDel_mem _ _ hmemk
        omega
      · intro p hp hpn q hq
        rw [hres] at hpn
        by_cases hpk : p.1 = p0.1
        · have hpp0 : p = p0 :=
            entry_eq_of_keys_nodup _ hnd1 p p0 hp hp0mem hpk
          rw [hpp0]
          exact oldestFav_le _ _ hof q hq
        · exact absurd (mem_dictDel_of_ne _ _ _ hp hpk) hpn
  · have hres : (addToFavorites m freshId now none session_id question sql
        tables favorite_name tags).2.favorites = favs1 := by
      have hq' := hq
      have hsql' := hsql
      simp only [truthyStr] at hq' hsql'
      simp [addToFavorites, truthyStr, hq', hsql', newFavoriteRecord_id,
        ← hfavs1, hgt]
    constructor
    · rw [hres]
      omega
    · intro p hp hpn q hq
      rw [hres] at hpn
      exact absurd hp hpn

/-- Witness for claim C3 (amended): create-new mode at the bound
(`max_favorites = 1`) evicts the entry with the smallest `created_at` and
keeps the count at the bound. -/
theorem c3_create_favorite_bound_witness :
    (addToFavorites mgrC3 "nf" 5 none none (some "newer q")
        (some "select 9") none none none).2.favorites.length ≤ 1 ∧
    favC3.created_at ≤ (newFavoriteRecord "nf" 5 none (some "newer q")
        (some "select 9") none none none).created_at := by
  have h := c3_create_favorite_bound mgrC3 "nf" 5 none (some "newer q")
    (some "select 9") none none none rfl rfl (by decide) rfl (by decide)
  refine ⟨h.1, ?_⟩
  exact h.2 ("f3", favC3) (by decide) (by decide)
    ("nf", newFavoriteRecord "nf" 5 none (some "newer q") (some "select 9")
      none none none) (by decide)

/-- Claim C2 counterexample: with the durable log holding one record for
session `"s"` while the in-memory cache holds nothing, `get_history`
returns `[]` — it reads the cache, not the PersistentLog named by the
claim, whose reading (`getHistorySpec`) yields the record. -/
theorem c2_get_history_counterexample :
    getHistory stC2.qh "s" 20 0 none none = [] ∧
    getHistorySpec stC2 "s" 20 0 none none = [recC2] := by
  refine ⟨rfl, ?_⟩
  simp [getHistorySpec, stC2, recC2, truthyStr, truthyList]

theorem cond_filter_eq (search : Option String) (tf : Option (List String))
    (qs : List QueryRecord) :
    (if truthyList tf then
      (if truthyStr search then
        qs.filter (matchesSearch (lowerStr (search.getD ""))) else
        qs).filter (intersectsTables (tf.getD []))
    else
      (if truthyStr search then
        qs.filter (matchesSearch (lowerStr (search.getD ""))) else qs)) =
    qs.filter (keepsRecord search tf) := by
  by_cases hts : truthyStr search = true <;>
    by_cases htf : truthyList tf = true
  · rw [if_pos htf, if_pos hts, List.filter_filter]
    apply List.filter_congr
    intro a _
    simp [keepsRecord, hts, htf, Bool.and_comm]
  · have htf' : truthyList tf = false := by simpa using htf
    rw [if_neg htf, if_pos hts]
    apply List.filter_congr
    intro a _
    simp [keepsRecord, hts, htf']
  · have hts' : truthyStr search = false := by simpa using hts
    rw [if_pos htf, if_neg hts]
    apply List.filter_congr
    intro a _
    simp [keepsRecord, hts', htf]
  · have hts' : truthyStr search = false := by simpa using hts
    have htf' : truthyList tf = false := by simpa using htf
    rw [if_neg htf, if_neg hts]
    have hall : qs.filter (keepsRecord search tf) =
        qs.filter (fun _ => true) := by
      apply List.filter_congr
      intro a _
      simp [keepsRecord, hts', htf']
    rw [hall, List.filter_true]

theorem keepsRecord_eq_true (search : Option String)
    (tf : Option (List String)) (q : QueryRecord) :
    keepsRecord search tf q = true ↔
      ((truthyStr search = true →
        matchesSearch (lowerStr (search.getD "")) q = true) ∧
       (truthyList tf = true → intersectsTables (tf.getD []) q = true)) := by
  cases hts : truthyStr search <;> cases htf : truthyList tf <;>
    simp [keepsRecord, hts, htf]

theorem paginate_mergeSort_facts (l : List QueryRecord)
    (limit offset : Nat) :
    (∀ q ∈ ((l.mergeSort byCreatedDesc).drop offset).take limit, q ∈ l) ∧
    (((l.mergeSort byCreatedDesc).drop offset).take limit).length ≤ limit ∧
    (((l.mergeSort byCreatedDesc).drop offset).take limit).Sorted
      (fun a b => b.created_at ≤ a.created_at) := by
  refine ⟨?_, ?_, ?_⟩
  · intro q hq
    exact List.mem_mergeSort.mp
      (List.mem_of_mem_drop (List.mem_of_mem_take hq))
  · exact List.length_take_le _ _
  · have hp := @List.sorted_mergeSort _ byCreatedDesc byCreatedDesc_trans
      byCreatedDesc_total l
    have hp2 : (l.mergeSort byCreatedDesc).Pairwise
        (fun a b => b.created_at ≤ a.created_at) := by
      refine hp.imp ?_
      intro a b hab
      simpa [byCreatedDesc, Nat.ble_eq] using hab
    have hsub : List.Sublist
        (((l.mergeSort byCreatedDesc).drop offset).take limit)
        (l.mergeSort byCreatedDesc) :=
      (List.take_sublist _ _).trans (List.drop_sublist _ _)
    exact List.Pairwise.sublist hsub hp2

/-- Claim C2 amended (corrected): `get_history` reads from the in-memory
per-session cache, not from the durable log; on that cache the remainder
of the claim holds exactly: the result *equals* the `offset`/`limit`
window of the stable `created_at`-descending sort of the cached records
that pass both filters (so the filters keep exactly the matching records
and pagination is applied after filtering), the combined filter keeps a
record iff it passes the case-insensitive search match and the
tables-intersection test, the result never exceeds `limit` records, and
it is ordered by `created_at` descending. -/
theorem c2_get_history_cache (m : QueryHistoryManager) (sid : String)
    (limit offset : Nat) (search : Option String)
    (tf : Option (List String)) :
    getHistory m sid limit offset search tf =
      (((((dictGet m.history sid).getD []).filter
          (keepsRecord search tf)).mergeSort byCreatedDesc).drop
        offset).take limit ∧
    (∀ q, q ∈ ((dictGet m.history sid).getD []).filter
        (keepsRecord search tf) ↔
      (q ∈ (dictGet m.history sid).getD [] ∧
        (truthyStr search = true →
          matchesSearch (lowerStr (search.getD "")) q = true) ∧
        (truthyList tf = true →
          intersectsTables (tf.getD []) q = true))) ∧
    (getHistory m sid limit offset search tf).length ≤ limit ∧
    (getHistory m sid limit offset search tf).Sorted
      (fun a b => b.created_at ≤ a.created_at) := by
  have hEq : getHistory m sid limit offset search tf =
      (((((dictGet m.history sid).getD []).filter
          (keepsRecord search tf)).mergeSort byCreatedDesc).drop
        offset).take limit := by
    cases hg : dictGet m.history sid with
    | none => simp [getHistory, hg]
    | some qs =>
      simp only [getHistory, hg, Option.getD_some]
      rw [← cond_filter_eq search tf qs]
  refine ⟨hEq, ?_, ?_, ?_⟩
  · intro q
    rw [List.mem_filter, keepsRecord_eq_true]
  · rw [hEq]
    exact (paginate_mergeSort_facts _ limit offset).2.1
  · rw [hEq]
    exact (paginate_mergeSort_facts _ limit offset).2.2

/-- Witness for claim C2 (amended): a concrete cache with two records for
session `"s"` and the search `"count"`; exactly the matching record
survives, the window equation evaluates to `[recW2]`, and the membership
characterization holds at `recW2`. -/
theorem c2_get_history_cache_witness :
    getHistory mgrC2w "s" 20 0 (some "count") none = [recW2] ∧
    recW2 ∈ ((dictGet mgrC2w.history "s").getD []).filter
      (keepsRecord (some "count") none) ∧
    (getHistory mgrC2w "s" 20 0 (some "count") none).length ≤ 20 := by
  have h := c2_get_history_cache mgrC2w "s" 20 0 (some "count") none
  refine ⟨?_, ?_, h.2.2.1⟩
  · rw [h.1]
    have hdg : dictGet mgrC2w.history "s" = some [recW2, recW2b] := rfl
    rw [hdg]
    have hfil : [recW2, recW2b].filter (keepsRecord (some "count") none) =
        [recW2] := by decide
    simp [hfil]
  · refine (h.2.1 recW2).mpr ⟨by decide, fun _ => by decide, ?_⟩
    intro htf
    exact absurd htf (by decide)

/-- Claim C8: over a non-empty ascending-sorted data list and a percentage
`0 ≤ p ≤ 100`, the `percentile` helper computes exactly the
specification's formula — `k = (n-1)*p/100`, `f = floor(k)`,
`c = min(f+1, n-1)`, result `data[f] + (k-f)*(data[c]-data[f])` — and
`percentile([10,20,30,40,50], 50)` equals `30` exactly. -/
theorem c8_percentile_formula :
    (∀ (data : List ℚ) (p : ℚ), data ≠ [] →
      data.Sorted (· ≤ ·) → 0 ≤ p → p ≤ 100 →
      percentile data p = percentileSpec data p) ∧
    percentile [10, 20, 30, 40, 50] 50 = 30 := by
  constructor
  · intro data p hne _ hp0 hp100
    have hlen : 1 ≤ data.length := by
      cases data with
      | nil => exact absurd rfl hne
      | cons a l => simp
    have hempty : data.isEmpty = false := by
      cases data with
      | nil => exact absurd rfl hne
      | cons a l => rfl
    have hn1 : (0:ℚ) ≤ (data.length : ℚ) - 1 := by
      have h1 : (1:ℚ) ≤ (data.length : ℚ) := by exact_mod_cast hlen
      linarith
    have hk0 : 0 ≤ ((data.length : ℚ) - 1) * p / 100 := by
      apply div_nonneg
      · exact mul_nonneg hn1 hp0
      · norm_num
    have hpyInt : pyInt (((data.length : ℚ) - 1) * p / 100) =
        ⌊((data.length : ℚ) - 1) * p / 100⌋ := by
      simp [pyInt, hk0]
    have hkle : ((data.length : ℚ) - 1) * p / 100 ≤ (data.length : ℚ) - 1 :=
      by
      rw [div_le_iff₀ (by norm_num : (0:ℚ) < 100)]
      nlinarith
    have hfle : ⌊((data.length : ℚ) - 1) * p / 100⌋ ≤
        (data.length : ℤ) - 1 := by
      have hcast : ((data.length : ℚ) - 1) =
          (((data.length : ℤ) - 1 : ℤ) : ℚ) := by
        push_cast
        ring
      calc ⌊((data.length : ℚ) - 1) * p / 100⌋
          ≤ ⌊(data.length : ℚ) - 1⌋ := Int.floor_le_floor hkle
        _ = (data.length : ℤ) - 1 := by rw [hcast, Int.floor_intCast]
    have hc : (if ⌊((data.length : ℚ) - 1) * p / 100⌋ <
          (data.length : ℤ) - 1
        then ⌊((data.length : ℚ) - 1) * p / 100⌋ + 1
        else ⌊((data.length : ℚ) - 1) * p / 100⌋) =
        min (⌊((data.length : ℚ) - 1) * p / 100⌋ + 1)
          ((data.length : ℤ) - 1) := by
      split <;> omega
    simp only [percentile, percentileSpec, hempty, Bool.false_eq_true,
      if_false, hpyInt]
    rw [hc]
  · norm_num [percentile, pyInt]
    rfl

/-- Witness for claim C8: the theorem applied at the claimed instance. -/
theorem c8_percentile_formula_witness :
    percentile [10, 20, 30, 40, 50] 50 =
      percentileSpec [10, 20, 30, 40, 50] 50 :=
  c8_percentile_formula.1 [10, 20, 30, 40, 50] 50 (by simp)
    (by norm_num [List.sorted_cons]) (by norm_num) (by norm_num)
